import Mathlib

/-!
Shallow embedding of the tile-resolution, elevation-sampling, histogram and
profile core of the dtm-elevation-service repository.  Go `float64` values are
modelled as exact rationals (`ℚ`), the Go map `Repository` as a function
`String → Option TileMetadata`, and external collaborators (the GDAL raster
library and the projection engine) as explicit function parameters.  Fallible
Go functions returning `(T, error)` become either `Except` results or, where
the Go callers also use the value on the error path, a pair of the value and
an optional error.
-/

/-- TileMetadata mirrors the Go struct of the same name (repository.go). -/
structure TileMetadata where
  Index : String
  Path : String
  Source : String
  Actuality : String
deriving DecidableEq, Repr

/-- The zero value of `TileMetadata`, as produced by Go's `TileMetadata{}`. -/
def emptyTile : TileMetadata := ⟨"", "", "", ""⟩

/-- The global tile repository `Repository map[string]TileMetadata`,
modelled as a partial map from hash strings to tile metadata. -/
def RepoMap : Type := String → Option TileMetadata

/-- Spatial hash computed inside `getGeotiffTile` (rawtif.go): the prefixes are
`int(math.Floor(coord / 1000.0))`; variant 1 omits the variant suffix. -/
def spatialHash (easting northing : ℚ) (zone : ℤ) (tileVariant : ℤ) : String :=
  let eastingPfx : ℤ := ⌊easting / 1000⌋
  let northingPfx : ℤ := ⌊northing / 1000⌋
  if tileVariant = 1 then
    toString zone ++ "_" ++ toString eastingPfx ++ "_" ++ toString northingPfx
  else
    toString zone ++ "_" ++ toString eastingPfx ++ "_" ++ toString northingPfx
      ++ "_" ++ toString tileVariant

/-- Error outcomes of the tile/elevation lookup functions in rawtif.go.  Go
wraps causes with `fmt.Errorf("error [%w] ...")`, which keeps the underlying
cause, so wrapping is modelled as the identity on the cause. -/
inductive ElevErr where
  | tileLookupFailed (hash : String)
  | tileNotFound
  | transformFailed
  | invalidLongitude
  | sampleFailed (msg : String)
deriving DecidableEq, Repr

/-- Translation of `getGeotiffTile` (rawtif.go, lines 439-458). -/
def getGeotiffTile (repo : RepoMap) (easting northing : ℚ) (zone : ℤ)
    (tileVariant : ℤ) : Except ElevErr TileMetadata :=
  let hash := spatialHash easting northing zone tileVariant
  match repo hash with
  | some tile => .ok tile
  | none => .error (.tileLookupFailed hash)

/-- One insertion step of `buildRepository` (repository.go, lines 59-79):
store under the primary slot if free, else under the secondary slot if free,
else overwrite the tertiary slot. -/
def insertTile (m : RepoMap) (entry : TileMetadata) : RepoMap :=
  match m entry.Index with
  | none => fun k => if k = entry.Index then some entry else m k
  | some _ =>
    match m (entry.Index ++ "_2") with
    | none => fun k => if k = entry.Index ++ "_2" then some entry else m k
    | some _ => fun k => if k = entry.Index ++ "_3" then some entry else m k

/-- The record-insertion loop of `buildRepository`: the state repositories are
processed in a fixed caller-supplied order, so the whole build is a single
fold over the concatenated record list. -/
def buildRepository (entries : List TileMetadata) (m : RepoMap) : RepoMap :=
  entries.foldl insertTile m

/-- Per-tile raster sampling (`getElevationFromUTM(x, y, path)`), abstracted
over the raster file contents: it returns the Go pair of elevation value and
optional error (Go returns `elevation = 0` together with the error on its
error paths, and downstream code keeps the value). -/
def Sampler : Type := ℚ → ℚ → String → ℚ × Option ElevErr

/-- The external projection engine `transformLonLatToUTM(lon, lat, epsg)`. -/
def TransformFn : Type := ℚ → ℚ → ℤ → Except ElevErr (ℚ × ℚ)

/-- The post-switch body of `getTileUTM` (rawtif.go, lines 613-638): transform
into the primary zone, look the primary key up, on lookup failure transform
into the neighbor zone and retry, propagating transform/lookup errors. -/
def getTileUTMLookup (repo : RepoMap) (transform : TransformFn)
    (longitude latitude : ℚ) (zone targetEPSG neighborZone neighborTargetEPSG : ℤ) :
    Except ElevErr (TileMetadata × ℤ × ℚ × ℚ) :=
  match transform longitude latitude targetEPSG with
  | .error e => .error e
  | .ok (x, y) =>
    match getGeotiffTile repo x y zone 1 with
    | .ok tile => .ok (tile, zone, x, y)
    | .error _ =>
      match transform longitude latitude neighborTargetEPSG with
      | .error e => .error e
      | .ok (x2, y2) =>
        match getGeotiffTile repo x2 y2 neighborZone 1 with
        | .ok tile => .ok (tile, neighborZone, x2, y2)
        | .error e => .error e

/-- Translation of `getTileUTM` (rawtif.go, lines 562-639): the longitude
switch selecting primary zone/EPSG and neighbor zone/EPSG, then the
primary/neighbor lookup cascade. -/
def getTileUTM (repo : RepoMap) (transform : TransformFn)
    (longitude latitude : ℚ) : Except ElevErr (TileMetadata × ℤ × ℚ × ℚ) :=
  if 6 ≤ longitude ∧ longitude < 12 then
    if 9 ≤ longitude then
      getTileUTMLookup repo transform longitude latitude 32 25832 33 25833
    else
      getTileUTMLookup repo transform longitude latitude 32 25832 31 25831
  else if 12 ≤ longitude ∧ longitude < 18 then
    if 15 ≤ longitude then
      getTileUTMLookup repo transform longitude latitude 33 25833 34 25834
    else
      getTileUTMLookup repo transform longitude latitude 33 25833 32 25832
  else if 0 ≤ longitude ∧ longitude < 6 then
    if 3 ≤ longitude then
      getTileUTMLookup repo transform longitude latitude 31 25831 32 25832
    else
      getTileUTMLookup repo transform longitude latitude 31 25831 30 25830
  else .error .invalidLongitude

/-- Translation of `getElevationForUTMPoint` (rawtif.go, lines 645-699):
primary lookup (with `-8888.0` and a bare "tile not found" error when absent),
then the variant 2 / variant 3 cascade, entered whenever the sampled value is
below `-9998.9`. -/
def getElevationForUTMPoint (repo : RepoMap) (sample : Sampler) (zone : ℤ)
    (easting northing : ℚ) : ℚ × TileMetadata × Option ElevErr :=
  match getGeotiffTile repo easting northing zone 1 with
  | .error _ => (-8888, emptyTile, some .tileNotFound)
  | .ok tile1 =>
    match sample easting northing tile1.Path with
    | (elevation, some e) => (elevation, tile1, some e)
    | (elevation, none) =>
      if elevation < -99989/10 then
        match getGeotiffTile repo easting northing zone 2 with
        | .error e => (elevation, emptyTile, some e)
        | .ok tile2 =>
          match sample easting northing tile2.Path with
          | (elevation2, some e) => (elevation2, tile2, some e)
          | (elevation2, none) =>
            if elevation2 < -99989/10 then
              match getGeotiffTile repo easting northing zone 3 with
              | .error e => (elevation2, emptyTile, some e)
              | .ok tile3 =>
                match sample easting northing tile3.Path with
                | (elevation3, some e) => (elevation3, tile3, some e)
                | (elevation3, none) => (elevation3, tile3, none)
            else (elevation2, tile2, none)
      else (elevation, tile1, none)

/-- Translation of `getElevationForPoint` (rawtif.go, lines 476-534): resolve
the tile and projected coordinates via `getTileUTM`, then the same
variant 2 / variant 3 cascade below `-9998.9`. -/
def getElevationForPoint (repo : RepoMap) (transform : TransformFn) (sample : Sampler)
    (longitude latitude : ℚ) : ℚ × TileMetadata × Option ElevErr :=
  match getTileUTM repo transform longitude latitude with
  | .error e => (0, emptyTile, some e)
  | .ok (tile1, zone, x, y) =>
    match sample x y tile1.Path with
    | (elevation, some e) => (elevation, tile1, some e)
    | (elevation, none) =>
      if elevation < -99989/10 then
        match getGeotiffTile repo x y zone 2 with
        | .error e => (elevation, emptyTile, some e)
        | .ok tile2 =>
          match sample x y tile2.Path with
          | (elevation2, some e) => (elevation2, tile2, some e)
          | (elevation2, none) =>
            if elevation2 < -99989/10 then
              match getGeotiffTile repo x y zone 3 with
              | .error e => (elevation2, emptyTile, some e)
              | .ok tile3 =>
                match sample x y tile3.Path with
                | (elevation3, some e) => (elevation3, tile3, some e)
                | (elevation3, none) => (elevation3, tile3, none)
            else (elevation2, tile2, none)
      else (elevation, tile1, none)

/-- Error outcomes of `getElevationFromUTM` (gdal.go). -/
inductive SampleErr where
  | rotatedOrSkewed
  | zeroPixelSize
  | outOfBounds
  | noBands
  | readFailed
  | unsupportedDataType
  | noDataValue
deriving DecidableEq, Repr

/-- The spec's GeometryError class: rotated/skewed or degenerate raster. -/
def isGeometryError : SampleErr → Bool
  | .rotatedOrSkewed => true
  | .zeroPixelSize => true
  | _ => false

/-- An opened single-band raster: six geotransform parameters, raster size,
the per-pixel read (already widened to a numeric value, as gdal.go widens all
supported encodings to float64) and the declared NoData marker. -/
structure RasterData where
  gt0 : ℚ
  gt1 : ℚ
  gt2 : ℚ
  gt3 : ℚ
  gt4 : ℚ
  gt5 : ℚ
  sizeX : ℤ
  sizeY : ℤ
  pixel : ℤ → ℤ → Except SampleErr ℚ
  nodata : Option ℚ

/-- Translation of `getElevationFromUTM` (gdal.go, lines 81-221), starting
from the opened raster (file existence and opening are external I/O): reject
rotation/skew, reject zero pixel size, invert the affine transform, floor to
pixel indices, bounds-check, read the pixel, check the NoData marker. -/
def getElevationFromUTM (xUTM yUTM : ℚ) (r : RasterData) : Except SampleErr ℚ :=
  if r.gt2 ≠ 0 ∨ r.gt4 ≠ 0 then .error .rotatedOrSkewed
  else if r.gt1 = 0 ∨ r.gt5 = 0 then .error .zeroPixelSize
  else
    let colF := (xUTM - r.gt0) / r.gt1
    let rowF := (yUTM - r.gt3) / r.gt5
    let col : ℤ := ⌊colF⌋
    let row : ℤ := ⌊rowF⌋
    if col < 0 ∨ r.sizeX ≤ col ∨ row < 0 ∨ r.sizeY ≤ row then .error .outOfBounds
    else
      match r.pixel col row with
      | .error e => .error e
      | .ok pixelValue =>
        match r.nodata with
        | some nodata => if pixelValue = nodata then .error .noDataValue else .ok pixelValue
        | none => .ok pixelValue

/-- Histogram type selector: `"quantile"` versus the equal-width default
(`"standard"`). -/
inductive HistKind where
  | quantile
  | standard
deriving DecidableEq, Repr

/-- Error outcomes of `processHistogramData` (unnamed/part_000); the user
min/max parse errors are elided because the user overrides are modelled as
already-parsed `Option ℚ` values. -/
inductive HistErr where
  | noMinMax
  | userMinNotLessThanMax
  | quantileRangeInvalid
  | equalWidthRangeInvalid
deriving DecidableEq, Repr

/-- HistogramStatistic mirrors the Go struct; float64 fields that Go fills
with NaN for "not applicable" are `Option ℚ` with `none` for NaN. -/
structure HistogramStatistic where
  NoValueCount : ℕ
  ValuesTotal : ℕ
  MinValueAbsolute : Option ℚ
  MaxValueAbsolute : Option ℚ
  MinValueHistogram : Option ℚ
  MaxValueHistogram : Option ℚ
  NoValuePercent : ℚ
  BelowHistogramMinCount : ℕ
  AboveHistogramMaxCount : ℕ
  BelowHistogramMinPercent : ℚ
  AboveHistogramMaxPercent : ℚ
deriving DecidableEq, Repr

/-- HistogramEntry mirrors the Go struct. -/
structure HistogramEntry where
  LowerBound : ℚ
  UpperBound : ℚ
  BinCount : ℕ
  BinPercent : ℚ
deriving DecidableEq, Repr

/-- A freshly zero-initialized statistic with the two counters set, as at the
top of `processHistogramData`. -/
def baseStatistic (noValueCount totalParsedValues : ℕ) : HistogramStatistic :=
  { NoValueCount := noValueCount, ValuesTotal := totalParsedValues,
    MinValueAbsolute := none, MaxValueAbsolute := none,
    MinValueHistogram := none, MaxValueHistogram := none,
    NoValuePercent := 0, BelowHistogramMinCount := 0, AboveHistogramMaxCount := 0,
    BelowHistogramMinPercent := 0, AboveHistogramMaxPercent := 0 }

/-- The statistic returned when there are no non-sentinel values
(processHistogramData, lines 606-622). -/
def emptyValuesStatistic (noValueCount totalParsedValues : ℕ) : HistogramStatistic :=
  { baseStatistic noValueCount totalParsedValues with
    NoValuePercent := if totalParsedValues = 0 then 0 else 100 }

/-- The largest finite float64, `math.MaxFloat64`, used by
`findMinMaxFromValues` as the initial fold state. -/
def maxFloat64 : ℚ := (2 ^ 53 - 1) * 2 ^ 971

/-- One iteration of the min/max scan of `findMinMaxFromValues`. -/
def minMaxStep (p : ℚ × ℚ) (val : ℚ) : ℚ × ℚ :=
  (if val < p.1 then val else p.1, if p.2 < val then val else p.2)

/-- Translation of `findMinMaxFromValues` (unnamed/part_000, lines 523-540):
`none` models the Go error return for an empty input. -/
def findMinMaxFromValues (values : List ℚ) : Option (ℚ × ℚ) :=
  if values = [] then none
  else some (values.foldl minMaxStep (maxFloat64, -maxFloat64))

/-- Ascending insertion of one value into a sorted list. -/
def insertSorted (x : ℚ) : List ℚ → List ℚ
  | [] => [x]
  | y :: ys => if x ≤ y then x :: y :: ys else y :: insertSorted x ys

/-- Ascending sort; `sort.Float64s` produces the unique ascending rearrangement
of the values, which insertion sort also produces. -/
def sortAsc : List ℚ → List ℚ
  | [] => []
  | x :: xs => insertSorted x (sortAsc xs)

/-- Overwrite the final element of a list (the Go `bins[numBins-1] = v`
assignment); on `[]` Go would panic, which is unreachable for the validated
bin counts 1..999. -/
def setLastQ : List ℚ → ℚ → List ℚ
  | [], _ => []
  | [_], v => [v]
  | b :: b2 :: bs, v => b :: setLastQ (b2 :: bs) v

/-- Translation of `calculateEqualWidthBins` (lines 545-558). -/
def calculateEqualWidthBins (minVal maxVal : ℚ) (numBins : ℕ) : List ℚ × List ℕ :=
  let binWidth := (maxVal - minVal) / (numBins : ℚ)
  let bins := (List.range numBins).map (fun i : ℕ => minVal + ((i : ℚ) + 1) * binWidth)
  (setLastQ bins maxVal, List.replicate numBins 0)

/-- Translation of `calculateQuantileBins` (lines 564-591): nearest-rank upper
bounds from the sorted filtered values, index `⌊n·(i+1)/numBins⌋` clamped to
`[0, n-1]` (the lower clamp is vacuous over ℕ), last bound forced to the
effective maximum. -/
def calculateQuantileBins (valuesForQuantileCalc : List ℚ) (minHistVal maxHistVal : ℚ)
    (numBins : ℕ) : List ℚ × List ℕ :=
  let counts : List ℕ := List.replicate numBins 0
  let numValues := valuesForQuantileCalc.length
  if numValues = 0 ∨ numBins = 0 then (List.replicate numBins 0, counts)
  else
    let bins := (List.range numBins).map (fun i =>
      let idx := numValues * (i + 1) / numBins
      let idx := if numValues ≤ idx then numValues - 1 else idx
      valuesForQuantileCalc.getD idx minHistVal)
    (setLastQ bins maxHistVal, counts)

/-- The identical-min/max expansion used by both histogram modes
(lines 713-723 and 746-756): shift each side by `0.0001·|min|`, falling back
to `0.0001` only when that product is zero. -/
def adjustIfEqual (mn mx : ℚ) : ℚ × ℚ :=
  if mn = mx then
    let adjustment := 1/10000 * |mn|
    let adjustment := if adjustment = 0 then 1/10000 else adjustment
    (mn - adjustment, mx + adjustment)
  else (mn, mx)

/-- The linear scan `for i ...: if val < binUpperBounds[i] break` of the
population pass, returning the first matching index. -/
def findBinIdx (val : ℚ) : List ℚ → Option ℕ
  | [] => none
  | b :: bs => if val < b then some 0 else (findBinIdx val bs).map (· + 1)

/-- `tempBinCounts[idx]++`. -/
def incrementAt : List ℕ → ℕ → List ℕ
  | [], _ => []
  | c :: cs, 0 => (c + 1) :: cs
  | c :: cs, i + 1 => c :: incrementAt cs i

/-- One iteration of the population pass (lines 769-795), threading the state
`(belowCount, aboveCount, tempBinCounts)`. -/
def populateStep (effectiveMinVal effectiveMaxVal : ℚ) (numberOfBins : ℕ)
    (binUpperBounds : List ℚ) (st : ℕ × ℕ × List ℕ) (val : ℚ) : ℕ × ℕ × List ℕ :=
  if val < effectiveMinVal then (st.1 + 1, st.2.1, st.2.2)
  else if effectiveMaxVal < val then (st.1, st.2.1 + 1, st.2.2)
  else
    let idx : ℤ := if val = effectiveMaxVal then (numberOfBins : ℤ) - 1
      else match findBinIdx val binUpperBounds with
        | some i => (i : ℤ)
        | none => -1
    if idx = -1 then st else (st.1, st.2.1, incrementAt st.2.2 idx.toNat)

/-- The population pass over all (unfiltered) non-sentinel values. -/
def populateAll (effectiveMinVal effectiveMaxVal : ℚ) (numberOfBins : ℕ)
    (binUpperBounds : List ℚ) (values : List ℚ) (counts0 : List ℕ) : ℕ × ℕ × List ℕ :=
  values.foldl (populateStep effectiveMinVal effectiveMaxVal numberOfBins binUpperBounds)
    (0, 0, counts0)

/-- The HistogramEntry assembly loop (lines 811-823): contiguous entries whose
lower bound is the previous upper bound, with per-bin percentages relative to
the total binned count. -/
def buildEntries (lower : ℚ) : List ℚ → List ℕ → ℕ → List HistogramEntry
  | b :: bs, c :: cs, totalBinnedCount =>
    { LowerBound := lower, UpperBound := b, BinCount := c,
      BinPercent := if 0 < totalBinnedCount then ((c : ℚ) / (totalBinnedCount : ℚ)) * 100 else 0 }
      :: buildEntries b bs cs totalBinnedCount
  | _, _, _ => []

/-- Force the upper bound of the final entry to the effective maximum
(lines 826-828). -/
def setLastUpper : List HistogramEntry → ℚ → List HistogramEntry
  | [], _ => []
  | [e], v => [{ e with UpperBound := v }]
  | e :: e2 :: es, v => e :: setLastUpper (e2 :: es) v

/-- The running total of the population pass state: below-count plus
above-count plus the sum of the per-bin counts. -/
def popTotal (st : ℕ × ℕ × List ℕ) : ℕ := st.1 + st.2.1 + st.2.2.sum

/-- The expansion amount applied by `adjustIfEqual`: `0.0001·|v|`, falling
back to `0.0001` only when that product is zero. -/
def histAdjustment (v : ℚ) : ℚ :=
  if 1/10000 * |v| = 0 then 1/10000 else 1/10000 * |v|

/-- The Go check `userMinProvided && userMaxProvided && minUserVal >= maxUserVal`. -/
def bothUserBoundsInvalid : Option ℚ → Option ℚ → Bool
  | some mn, some mx => mx ≤ mn
  | _, _ => false

/-- Shared tail of both histogram modes: set the histogram range, run the
population pass, compute percentages, assemble the entries and force the last
upper bound (lines 765-830). -/
def finishHistogram (statistic : HistogramStatistic) (values : List ℚ)
    (noValueCount totalParsedValues numberOfBins : ℕ)
    (effectiveMinVal effectiveMaxVal : ℚ) (binUpperBounds : List ℚ) (counts0 : List ℕ) :
    Except HistErr (HistogramStatistic × List HistogramEntry) :=
  let pop := populateAll effectiveMinVal effectiveMaxVal numberOfBins binUpperBounds values counts0
  let statistic1 := { statistic with
    MinValueHistogram := some effectiveMinVal,
    MaxValueHistogram := some effectiveMaxVal,
    BelowHistogramMinCount := pop.1,
    AboveHistogramMaxCount := pop.2.1,
    NoValuePercent := if 0 < totalParsedValues then
      ((noValueCount : ℚ) / (totalParsedValues : ℚ)) * 100 else statistic.NoValuePercent,
    BelowHistogramMinPercent := if 0 < totalParsedValues then
      ((pop.1 : ℚ) / (totalParsedValues : ℚ)) * 100 else statistic.BelowHistogramMinPercent,
    AboveHistogramMaxPercent := if 0 < totalParsedValues then
      ((pop.2.1 : ℚ) / (totalParsedValues : ℚ)) * 100 else statistic.AboveHistogramMaxPercent }
  let totalBinnedCount := pop.2.2.sum
  let entries := setLastUpper
    (buildEntries effectiveMinVal binUpperBounds pop.2.2 totalBinnedCount) effectiveMaxVal
  .ok (statistic1, entries)

/-- The quantile branch of `processHistogramData` (lines 661-725): filter
range from user overrides merged with the absolute min/max, inclusive filter,
empty-filtered early return, sort, identical-value expansion, quantile bins. -/
def quantileBranch (values : List ℚ) (noValueCount totalParsedValues numberOfBins : ℕ)
    (minUserVal maxUserVal : Option ℚ) (statistic : HistogramStatistic)
    (overallTrueMin overallTrueMax : ℚ) :
    Except HistErr (HistogramStatistic × List HistogramEntry) :=
  let filterMin := minUserVal.getD overallTrueMin
  let filterMax := maxUserVal.getD overallTrueMax
  if filterMax ≤ filterMin then .error .quantileRangeInvalid
  else
    let valuesForQuantileCalc :=
      values.filter (fun val => decide (filterMin ≤ val) && decide (val ≤ filterMax))
    if valuesForQuantileCalc.isEmpty then
      let below := (values.filter (fun val => decide (val < filterMin))).length
      let above := (values.filter (fun val => decide (filterMax < val))).length
      .ok ({ statistic with
        MinValueHistogram := some filterMin, MaxValueHistogram := some filterMax,
        BelowHistogramMinCount := below, AboveHistogramMaxCount := above,
        BelowHistogramMinPercent := if 0 < totalParsedValues then
          ((below : ℚ) / (totalParsedValues : ℚ)) * 100 else statistic.BelowHistogramMinPercent,
        AboveHistogramMaxPercent := if 0 < totalParsedValues then
          ((above : ℚ) / (totalParsedValues : ℚ)) * 100 else statistic.AboveHistogramMaxPercent },
        [])
    else
      let sortedVals := sortAsc valuesForQuantileCalc
      let effectiveMinMax := adjustIfEqual (sortedVals.headD 0) (sortedVals.getLastD 0)
      let binsCounts :=
        calculateQuantileBins sortedVals effectiveMinMax.1 effectiveMinMax.2 numberOfBins
      finishHistogram statistic values noValueCount totalParsedValues numberOfBins
        effectiveMinMax.1 effectiveMinMax.2 binsCounts.1 binsCounts.2

/-- The equal-width branch of `processHistogramData` (lines 727-763):
per-side user overrides merged with the absolute min/max, identical-value
expansion, range validity check, equal-width bins. -/
def standardBranch (values : List ℚ) (noValueCount totalParsedValues numberOfBins : ℕ)
    (minUserVal maxUserVal : Option ℚ) (statistic : HistogramStatistic)
    (overallTrueMin overallTrueMax : ℚ) :
    Except HistErr (HistogramStatistic × List HistogramEntry) :=
  let effectiveMinMax :=
    adjustIfEqual (minUserVal.getD overallTrueMin) (maxUserVal.getD overallTrueMax)
  if effectiveMinMax.2 ≤ effectiveMinMax.1 then .error .equalWidthRangeInvalid
  else
    let binsCounts := calculateEqualWidthBins effectiveMinMax.1 effectiveMinMax.2 numberOfBins
    finishHistogram statistic values noValueCount totalParsedValues numberOfBins
      effectiveMinMax.1 effectiveMinMax.2 binsCounts.1 binsCounts.2

/-- Translation of `processHistogramData` (unnamed/part_000, lines 596-831). -/
def processHistogramData (allNonSentinelValues : List ℚ)
    (noValueCount totalParsedValues : ℕ) (typeOfHistogram : HistKind)
    (numberOfBins : ℕ) (minUserVal maxUserVal : Option ℚ) :
    Except HistErr (HistogramStatistic × List HistogramEntry) :=
  match findMinMaxFromValues allNonSentinelValues with
  | none => .ok (emptyValuesStatistic noValueCount totalParsedValues, [])
  | some (overallTrueMin, overallTrueMax) =>
    let statistic := { baseStatistic noValueCount totalParsedValues with
      MinValueAbsolute := some overallTrueMin, MaxValueAbsolute := some overallTrueMax }
    if bothUserBoundsInvalid minUserVal maxUserVal then .error .userMinNotLessThanMax
    else match typeOfHistogram with
      | .quantile => quantileBranch allNonSentinelValues noValueCount totalParsedValues
          numberOfBins minUserVal maxUserVal statistic overallTrueMin overallTrueMax
      | .standard => standardBranch allNonSentinelValues noValueCount totalParsedValues
          numberOfBins minUserVal maxUserVal statistic overallTrueMin overallTrueMax

/-- Profile request point (elevationprofile.go), restricted to its UTM form. -/
structure PointDefinition where
  Zone : ℤ
  Easting : ℚ
  Northing : ℚ
deriving DecidableEq, Repr

/-- ProfilePoint mirrors the Go struct in its UTM form (the lon/lat fields
are only filled for lon/lat requests). -/
structure ProfilePoint where
  Distance : ℚ
  Elevation : ℚ
  Easting : ℚ
  Northing : ℚ
  Attribution : String
deriving DecidableEq, Repr

/-- The step-size/segment-count selection in `calculateElevationProfile`
(elevationprofile.go, lines 152-168). -/
def profileStepPlan (distance : ℚ) (maxTotalProfilePoints : ℤ) (minStepSize : ℚ) : ℚ × ℤ :=
  let maxPts := if maxTotalProfilePoints ≤ 1 then 2 else maxTotalProfilePoints
  if 0 < distance then
    let idealNumberOfSegments := maxPts - 1
    let idealStepSize := distance / (idealNumberOfSegments : ℚ)
    if idealStepSize < minStepSize then (minStepSize, ⌈distance / minStepSize⌉)
    else (idealStepSize, idealNumberOfSegments)
  else (0, 0)

/-- The sampling loop of `calculateElevationProfile` (lines 176-221): walk
`i = 0..steps`, force the final distance to the exact total distance, sample
via `getElevationForUTMPoint`, and skip (do not abort on) per-point failures. -/
def calculateProfilePoints (repo : RepoMap) (sample : Sampler) (zone : ℤ)
    (startE startN unitE unitN distance stepSize : ℚ) (steps : ℤ) : List ProfilePoint :=
  if steps < 0 then []
  else (List.range (steps.toNat + 1)).filterMap (fun i : ℕ =>
    let currentDistance := if (i : ℤ) = steps then distance else (i : ℚ) * stepSize
    let easting := startE + unitE * currentDistance
    let northing := startN + unitN * currentDistance
    let r := getElevationForUTMPoint repo sample zone easting northing
    match r.2.2 with
    | some _ => none
    | none => some ({ Distance := currentDistance, Elevation := r.1,
                      Easting := easting, Northing := northing,
                      Attribution := r.2.1.Source ++ ", " ++ r.2.1.Actuality } : ProfilePoint))

/-- Translation of the UTM-space core of `calculateElevationProfile`
(elevationprofile.go, lines 144-229).  The planar distance
`math.Sqrt(ΔE² + ΔN²)` is supplied as the `distance` parameter because square
roots leave ℚ; everything downstream of that square root is translated. -/
def calculateElevationProfile (repo : RepoMap) (sample : Sampler)
    (startUTM endUTM : PointDefinition) (distance : ℚ)
    (maxTotalProfilePoints : ℤ) (minStepSize : ℚ) : Except String (List ProfilePoint) :=
  if distance = 0 then .error "start and end points are identical"
  else
    let plan := profileStepPlan distance maxTotalProfilePoints minStepSize
    let unitVectorEasting := (endUTM.Easting - startUTM.Easting) / distance
    let unitVectorNorthing := (endUTM.Northing - startUTM.Northing) / distance
    .ok (calculateProfilePoints repo sample startUTM.Zone startUTM.Easting startUTM.Northing
      unitVectorEasting unitVectorNorthing distance plan.1 plan.2)

-- concrete scenario data used by the witnesses and counterexamples below

/-- A primary tile, as a concrete scenario input. -/
def tileA : TileMetadata := ⟨"32_1_1", "a.tif", "DE-NW", "2024-01-01"⟩

/-- A secondary (overlap) tile for the same grid cell as `tileA`. -/
def tileB : TileMetadata := ⟨"32_1_1", "b.tif", "DE-NI", "2017-04-19"⟩

/-- A repository holding `tileA` as primary and `tileB` as secondary for the
grid cell `32_1_1`. -/
def repoAB : RepoMap := fun k =>
  if k = "32_1_1" then some tileA else if k = "32_1_1_2" then some tileB else none

/-- A sampler whose primary raster holds the `-9999` sentinel and whose other
rasters hold `120.5`. -/
def sampleSentinel : Sampler := fun _ _ path =>
  if path = "a.tif" then (-9999, none) else (1205/10, none)

/-- A sampler whose primary raster holds `-9998.95` (below the code's
`-9998.9` threshold but different from `-9999`) and whose other rasters hold
`120.5`. -/
def sampleNear : Sampler := fun _ _ path =>
  if path = "a.tif" then (-199979/20, none) else (1205/10, none)

/-- A third overlap record for the grid cell of `tileA`. -/
def tileC : TileMetadata := ⟨"32_1_1", "c.tif", "DE-HE", "2019-06-01"⟩

/-- A fourth overlap record for the grid cell of `tileA`. -/
def tileD : TileMetadata := ⟨"32_1_1", "d.tif", "DE-RP", "2021-03-01"⟩

/-- The empty repository. -/
def repoEmpty : RepoMap := fun _ => none

/-- A trivial sampler. -/
def sampleZero : Sampler := fun _ _ _ => (0, none)

/-- A tile stored only under the neighbor-zone key `33_0_5`. -/
def tileN : TileMetadata := ⟨"33_0_5", "n.tif", "DE-SN", "2020-01-01"⟩

/-- A repository covering only the neighbor-zone grid cell of `tileN`. -/
def repoN : RepoMap := fun k => if k = "33_0_5" then some tileN else none

/-- A projection engine sending zone-32 requests to `(111, 5555)` and all
other zones to `(333, 5555)`. -/
def transformW : TransformFn := fun _ _ epsg =>
  if epsg = 25832 then .ok (111, 5555) else .ok (333, 5555)

/-- A rotated raster (nonzero `gt2`). -/
def rasterRot : RasterData :=
  { gt0 := 500000, gt1 := 1, gt2 := 1/2, gt3 := 5600000, gt4 := 0, gt5 := -1,
    sizeX := 1000, sizeY := 1000, pixel := fun _ _ => .ok 42, nodata := some (-9999) }

/-- A tile present in every grid cell (for profile sampling scenarios). -/
def tileP : TileMetadata := ⟨"32_0_0", "p.tif", "DE-HE", "2022-01-01"⟩

/-- A repository resolving every key to `tileP`. -/
def repoP : RepoMap := fun _ => some tileP

/-- A sampler returning elevation `42` everywhere. -/
def sampleP : Sampler := fun _ _ _ => (42, none)

/-- The statistic computed for the C2 scenario
(`values = [1..10]`, quantile mode, 5 bins, no overrides). -/
def c2Stat : HistogramStatistic :=
  { NoValueCount := 0, ValuesTotal := 10,
    MinValueAbsolute := some 1, MaxValueAbsolute := some 10,
    MinValueHistogram := some 1, MaxValueHistogram := some 10,
    NoValuePercent := 0, BelowHistogramMinCount := 0, AboveHistogramMaxCount := 0,
    BelowHistogramMinPercent := 0, AboveHistogramMaxPercent := 0 }

/-- The entries computed for the C2 scenario: upper bounds `[3,5,7,9,10]`,
two values in every bin. -/
def c2Entries : List HistogramEntry :=
  [⟨1, 3, 2, 20⟩, ⟨3, 5, 2, 20⟩, ⟨5, 7, 2, 20⟩, ⟨7, 9, 2, 20⟩, ⟨9, 10, 2, 20⟩]

-- helper lemmas

/-- Appending a nonempty suffix changes a string. -/
theorem append_suffix_ne (s t : String) (ht : t.length ≠ 0) : s ++ t ≠ s := by
  intro h
  have h' := congrArg String.length h
  rw [String.length_append] at h'
  omega

/-- Appending different suffixes to the same string gives different strings. -/
theorem append_suffix_inj (s t u : String) (h : t ≠ u) : s ++ t ≠ s ++ u := by
  intro he
  apply h
  have hd := congrArg String.data he
  rw [String.data_append, String.data_append] at hd
  exact String.ext (List.append_cancel_left hd)

/-- Unfolding `insertTile` when the primary slot is free. -/
theorem insertTile_primary (m : RepoMap) (e : TileMetadata) (h : m e.Index = none) :
    insertTile m e = fun k => if k = e.Index then some e else m k := by
  simp only [insertTile, h]

/-- Unfolding `insertTile` when the primary slot is taken and the secondary
slot is free. -/
theorem insertTile_secondary (m : RepoMap) (e v : TileMetadata)
    (h : m e.Index = some v) (h2 : m (e.Index ++ "_2") = none) :
    insertTile m e = fun k => if k = e.Index ++ "_2" then some e else m k := by
  simp only [insertTile, h, h2]

/-- Unfolding `insertTile` when the primary and secondary slots are taken. -/
theorem insertTile_tertiary (m : RepoMap) (e v w : TileMetadata)
    (h : m e.Index = some v) (h2 : m (e.Index ++ "_2") = some w) :
    insertTile m e = fun k => if k = e.Index ++ "_3" then some e else m k := by
  simp only [insertTile, h, h2]

-- C9

/-- C9: the primary spatial key is a pure function of
`(zone, ⌊easting/1000⌋, ⌊northing/1000⌋)`: any two projected coordinate pairs
whose floored kilometre indices agree produce the identical key string
`zone_⌊easting/1000⌋_⌊northing/1000⌋`. -/
theorem spatialKey_pure (zone : ℤ) (e n e' n' : ℚ)
    (he : ⌊e / 1000⌋ = ⌊e' / 1000⌋) (hn : ⌊n / 1000⌋ = ⌊n' / 1000⌋) :
    spatialHash e n zone 1 = spatialHash e' n' zone 1 ∧
    spatialHash e n zone 1
      = toString zone ++ "_" ++ toString (⌊e / 1000⌋ : ℤ)
        ++ "_" ++ toString (⌊n / 1000⌋ : ℤ) := by
  refine ⟨?_, ?_⟩
  · unfold spatialHash
    rw [he, hn]
  · simp [spatialHash]

/-- Witness for C9 at two concrete coordinate pairs of the grid cell
`32_437_5614`. -/
theorem spatialKey_pure_witness :
    spatialHash 437500 5614999 32 1 = spatialHash 437001 5614000 32 1 ∧
    spatialHash 437500 5614999 32 1
      = toString (32 : ℤ) ++ "_" ++ toString (⌊(437500 : ℚ) / 1000⌋ : ℤ)
        ++ "_" ++ toString (⌊(5614999 : ℚ) / 1000⌋ : ℤ) :=
  spatialKey_pure 32 437500 5614999 437001 5614000 (by norm_num) (by norm_num)

-- C4

/-- C4: during the repository build, records sharing primary key `K` fill the
slots `K`, `K_2`, `K_3` in insertion order; a fourth record with the same
primary key silently overwrites the `K_3` slot; filled primary and secondary
slots are never overwritten and no entry is ever removed. -/
theorem buildRepository_overlap (m : RepoMap) (r1 r2 r3 r4 : TileMetadata)
    (K : String) (h1 : r1.Index = K) (h2 : r2.Index = K) (h3 : r3.Index = K)
    (h4 : r4.Index = K) (hK : m K = none) (hK2 : m (K ++ "_2") = none)
    (hK3 : m (K ++ "_3") = none) :
    (buildRepository [r1, r2, r3] m K = some r1 ∧
     buildRepository [r1, r2, r3] m (K ++ "_2") = some r2 ∧
     buildRepository [r1, r2, r3] m (K ++ "_3") = some r3) ∧
    (buildRepository [r1, r2, r3, r4] m K = some r1 ∧
     buildRepository [r1, r2, r3, r4] m (K ++ "_2") = some r2 ∧
     buildRepository [r1, r2, r3, r4] m (K ++ "_3") = some r4) ∧
    (∀ (m' : RepoMap) (e : TileMetadata) (k : String) (v : TileMetadata),
      m' k = some v → k ≠ e.Index ++ "_3" → insertTile m' e k = some v) ∧
    (∀ (m' : RepoMap) (e : TileMetadata) (k : String) (v : TileMetadata),
      m' k = some v → ∃ w, insertTile m' e k = some w) := by
  have kne2 : K ++ "_2" ≠ K := append_suffix_ne K "_2" (by decide)
  have kne3 : K ++ "_3" ≠ K := append_suffix_ne K "_3" (by decide)
  have k2ne3 : K ++ "_2" ≠ K ++ "_3" := append_suffix_inj K "_2" "_3" (by decide)
  -- the four successive repository states
  have s1 : insertTile m r1 = fun k => if k = K then some r1 else m k := by
    rw [insertTile_primary m r1 (by rw [h1]; exact hK), h1]
  have s2 : insertTile (insertTile m r1) r2
      = fun k => if k = K ++ "_2" then some r2 else (insertTile m r1) k := by
    rw [insertTile_secondary (insertTile m r1) r2 r1
      (by rw [h2, s1]; simp) (by rw [h2, s1]; simp [kne2, hK2]), h2]
  have s3 : insertTile (insertTile (insertTile m r1) r2) r3
      = fun k => if k = K ++ "_3" then some r3
          else (insertTile (insertTile m r1) r2) k := by
    rw [insertTile_tertiary (insertTile (insertTile m r1) r2) r3 r1 r2
      (by rw [h3, s2, s1]; simp [Ne.symm kne2]) (by rw [h3, s2]; simp), h3]
  have s4 : insertTile (insertTile (insertTile (insertTile m r1) r2) r3) r4
      = fun k => if k = K ++ "_3" then some r4
          else (insertTile (insertTile (insertTile m r1) r2) r3) k := by
    rw [insertTile_tertiary (insertTile (insertTile (insertTile m r1) r2) r3) r4 r1 r2
      (by rw [h4, s3, s2, s1]; simp [Ne.symm kne2, Ne.symm kne3])
      (by rw [h4, s3, s2]; simp [k2ne3]), h4]
  refine ⟨⟨?_, ?_, ?_⟩, ⟨?_, ?_, ?_⟩, ?_, ?_⟩
  · show insertTile (insertTile (insertTile m r1) r2) r3 K = some r1
    rw [s3, s2, s1]; simp [Ne.symm kne2, Ne.symm kne3]
  · show insertTile (insertTile (insertTile m r1) r2) r3 (K ++ "_2") = some r2
    rw [s3, s2]; simp [k2ne3]
  · show insertTile (insertTile (insertTile m r1) r2) r3 (K ++ "_3") = some r3
    rw [s3]; simp
  · show insertTile (insertTile (insertTile (insertTile m r1) r2) r3) r4 K = some r1
    rw [s4, s3, s2, s1]; simp [Ne.symm kne2, Ne.symm kne3]
  · show insertTile (insertTile (insertTile (insertTile m r1) r2) r3) r4 (K ++ "_2")
      = some r2
    rw [s4, s3, s2]; simp [k2ne3]
  · show insertTile (insertTile (insertTile (insertTile m r1) r2) r3) r4 (K ++ "_3")
      = some r4
    rw [s4]; simp
  · -- filled primary/secondary slots are never overwritten
    intro m' e k v hv hk3
    unfold insertTile
    cases hp : m' e.Index with
    | none =>
      by_cases hke : k = e.Index
      · rw [hke] at hv; rw [hv] at hp; cases hp
      · simp [hke, hv]
    | some p =>
      cases hs : m' (e.Index ++ "_2") with
      | none =>
        by_cases hke : k = e.Index ++ "_2"
        · rw [hke] at hv; rw [hv] at hs; cases hs
        · simp [hke, hv]
      | some q => simp [hk3, hv]
  · -- no entry is ever removed
    intro m' e k v hv
    unfold insertTile
    cases hp : m' e.Index with
    | none =>
      by_cases hke : k = e.Index
      · exact ⟨e, by simp [hke]⟩
      · exact ⟨v, by simp [hke, hv]⟩
    | some p =>
      cases hs : m' (e.Index ++ "_2") with
      | none =>
        by_cases hke : k = e.Index ++ "_2"
        · exact ⟨e, by simp [hke]⟩
        · exact ⟨v, by simp [hke, hv]⟩
      | some q =>
        by_cases hke : k = e.Index ++ "_3"
        · exact ⟨e, by simp [hke]⟩
        · exact ⟨v, by simp [hke, hv]⟩

/-- Witness for C4: three overlapping records then a fourth, inserted into the
empty repository under the primary key `32_1_1`. -/
theorem buildRepository_overlap_witness :
    (buildRepository [tileA, tileB, tileC] repoEmpty "32_1_1" = some tileA ∧
     buildRepository [tileA, tileB, tileC] repoEmpty ("32_1_1" ++ "_2") = some tileB ∧
     buildRepository [tileA, tileB, tileC] repoEmpty ("32_1_1" ++ "_3") = some tileC) ∧
    (buildRepository [tileA, tileB, tileC, tileD] repoEmpty "32_1_1" = some tileA ∧
     buildRepository [tileA, tileB, tileC, tileD] repoEmpty ("32_1_1" ++ "_2") = some tileB ∧
     buildRepository [tileA, tileB, tileC, tileD] repoEmpty ("32_1_1" ++ "_3") = some tileD) ∧
    (∀ (m' : RepoMap) (e : TileMetadata) (k : String) (v : TileMetadata),
      m' k = some v → k ≠ e.Index ++ "_3" → insertTile m' e k = some v) ∧
    (∀ (m' : RepoMap) (e : TileMetadata) (k : String) (v : TileMetadata),
      m' k = some v → ∃ w, insertTile m' e k = some w) :=
  buildRepository_overlap repoEmpty tileA tileB tileC tileD "32_1_1"
    rfl rfl rfl rfl rfl rfl rfl

-- C8

/-- C8: for every raster that is rotated/skewed (`gt2 ≠ 0` or `gt4 ≠ 0`) or
has a zero pixel width or height (`gt1 = 0` or `gt5 = 0`),
`getElevationFromUTM` returns a geometry error for every input coordinate,
and the result does not depend on the raster's pixel contents. -/
theorem getElevationFromUTM_geometry (r : RasterData) (x y : ℚ)
    (h : r.gt2 ≠ 0 ∨ r.gt4 ≠ 0 ∨ r.gt1 = 0 ∨ r.gt5 = 0) :
    (∃ e, getElevationFromUTM x y r = .error e ∧ isGeometryError e = true) ∧
    (∀ p, getElevationFromUTM x y
        { r with pixel := p } = getElevationFromUTM x y r) := by
  by_cases h24 : r.gt2 ≠ 0 ∨ r.gt4 ≠ 0
  · refine ⟨⟨.rotatedOrSkewed, ?_, rfl⟩, ?_⟩
    · simp only [getElevationFromUTM, if_pos h24]
    · intro p
      simp only [getElevationFromUTM]
      rw [if_pos h24, if_pos h24]
  · have h15 : r.gt1 = 0 ∨ r.gt5 = 0 := by tauto
    refine ⟨⟨.zeroPixelSize, ?_, rfl⟩, ?_⟩
    · simp only [getElevationFromUTM, if_neg h24, if_pos h15]
    · intro p
      simp only [getElevationFromUTM]
      rw [if_neg h24, if_neg h24, if_pos h15, if_pos h15]

/-- Witness for C8 at the concrete rotated raster `rasterRot`. -/
theorem getElevationFromUTM_geometry_witness :
    (∃ e, getElevationFromUTM 500500 5599500 rasterRot = .error e ∧
      isGeometryError e = true) ∧
    (∀ p, getElevationFromUTM 500500 5599500
        { rasterRot with pixel := p } = getElevationFromUTM 500500 5599500 rasterRot) :=
  getElevationFromUTM_geometry rasterRot 500500 5599500 (Or.inl (by norm_num [rasterRot]))

-- C10

/-- C10: when the primary tile lookup fails for a UTM point query,
`getElevationForUTMPoint` returns the out-of-band elevation `-8888.0`
together with a "tile not found" error; `-8888` is distinct from the
missing-data sentinel `-9999` and from zero. -/
theorem getElevationForUTMPoint_minus8888 (repo : RepoMap) (sample : Sampler)
    (zone : ℤ) (e n : ℚ) (h : repo (spatialHash e n zone 1) = none) :
    getElevationForUTMPoint repo sample zone e n = (-8888, emptyTile, some .tileNotFound) ∧
    (-8888 : ℚ) ≠ -9999 ∧ (-8888 : ℚ) ≠ 0 := by
  refine ⟨?_, by norm_num, by norm_num⟩
  simp only [getElevationForUTMPoint, getGeotiffTile, h]

/-- Witness for C10 at the empty repository. -/
theorem getElevationForUTMPoint_minus8888_witness :
    getElevationForUTMPoint repoEmpty sampleZero 32 500 500
      = (-8888, emptyTile, some .tileNotFound) ∧
    (-8888 : ℚ) ≠ -9999 ∧ (-8888 : ℚ) ≠ 0 :=
  getElevationForUTMPoint_minus8888 repoEmpty sampleZero 32 500 500 rfl

-- C1

/-- C1 (amended): the cascade of `getElevationForUTMPoint` (and of
`getElevationForPoint`) over the tile variants is triggered exactly when the
sampled value is strictly below `-9998.9` (a test satisfied by the sentinel
`-9999.0` but also by any other value below the threshold); the first sampled
value at or above the threshold is returned with the tile that produced it,
the value returned by a tertiary sampling is returned as-is, and lookup or
sampling errors are propagated. -/
theorem getElevationForUTMPoint_cascade (repo : RepoMap) (sample : Sampler)
    (zone : ℤ) (e n : ℚ) :
    (∀ t v, getGeotiffTile repo e n zone 1 = .ok t →
      sample e n t.Path = (v, none) → ¬(v < -99989/10) →
      getElevationForUTMPoint repo sample zone e n = (v, t, none)) ∧
    (∀ t v t2 w, getGeotiffTile repo e n zone 1 = .ok t →
      sample e n t.Path = (v, none) → v < -99989/10 →
      getGeotiffTile repo e n zone 2 = .ok t2 →
      sample e n t2.Path = (w, none) → ¬(w < -99989/10) →
      getElevationForUTMPoint repo sample zone e n = (w, t2, none)) ∧
    (∀ t v t2 w t3 u, getGeotiffTile repo e n zone 1 = .ok t →
      sample e n t.Path = (v, none) → v < -99989/10 →
      getGeotiffTile repo e n zone 2 = .ok t2 →
      sample e n t2.Path = (w, none) → w < -99989/10 →
      getGeotiffTile repo e n zone 3 = .ok t3 →
      sample e n t3.Path = (u, none) →
      getElevationForUTMPoint repo sample zone e n = (u, t3, none)) ∧
    (∀ t v err, getGeotiffTile repo e n zone 1 = .ok t →
      sample e n t.Path = (v, none) → v < -99989/10 →
      getGeotiffTile repo e n zone 2 = .error err →
      getElevationForUTMPoint repo sample zone e n = (v, emptyTile, some err)) ∧
    (∀ t v t2 w err, getGeotiffTile repo e n zone 1 = .ok t →
      sample e n t.Path = (v, none) → v < -99989/10 →
      getGeotiffTile repo e n zone 2 = .ok t2 →
      sample e n t2.Path = (w, none) → w < -99989/10 →
      getGeotiffTile repo e n zone 3 = .error err →
      getElevationForUTMPoint repo sample zone e n = (w, emptyTile, some err)) ∧
    (∀ t v err, getGeotiffTile repo e n zone 1 = .ok t →
      sample e n t.Path = (v, some err) →
      getElevationForUTMPoint repo sample zone e n = (v, t, some err)) ∧
    (∀ (transform : TransformFn) (lon lat : ℚ) t z x y v t2 w,
      getTileUTM repo transform lon lat = .ok (t, z, x, y) →
      sample x y t.Path = (v, none) → v < -99989/10 →
      getGeotiffTile repo x y z 2 = .ok t2 →
      sample x y t2.Path = (w, none) → ¬(w < -99989/10) →
      getElevationForPoint repo transform sample lon lat = (w, t2, none)) := by
  refine ⟨?_, ?_, ?_, ?_, ?_, ?_, ?_⟩
  · intro t v h1 h2 h3
    simp only [getElevationForUTMPoint, h1, h2, if_neg h3]
  · intro t v t2 w h1 h2 h3 h4 h5 h6
    simp only [getElevationForUTMPoint, h1, h2, if_pos h3, h4, h5, if_neg h6]
  · intro t v t2 w t3 u h1 h2 h3 h4 h5 h6 h7 h8
    simp only [getElevationForUTMPoint, h1, h2, if_pos h3, h4, h5, if_pos h6, h7, h8]
  · intro t v err h1 h2 h3 h4
    simp only [getElevationForUTMPoint, h1, h2, if_pos h3, h4]
  · intro t v t2 w err h1 h2 h3 h4 h5 h6 h7
    simp only [getElevationForUTMPoint, h1, h2, if_pos h3, h4, h5, if_pos h6, h7]
  · intro t v err h1 h2
    simp only [getElevationForUTMPoint, h1, h2]
  · intro transform lon lat t z x y v t2 w h1 h2 h3 h4 h5 h6
    simp only [getElevationForPoint, h1, h2, if_pos h3, h4, h5, if_neg h6]

/-- Evaluation: the primary lookup for `(1500, 1500)` in zone 32 finds `tileA`. -/
theorem repoAB_tile1 : getGeotiffTile repoAB 1500 1500 32 1 = .ok tileA := by
  have hf : (⌊(1500 : ℚ) / 1000⌋ : ℤ) = 1 := by norm_num
  simp only [getGeotiffTile, spatialHash, hf]
  rfl

/-- Evaluation: the secondary lookup for `(1500, 1500)` in zone 32 finds `tileB`. -/
theorem repoAB_tile2 : getGeotiffTile repoAB 1500 1500 32 2 = .ok tileB := by
  have hf : (⌊(1500 : ℚ) / 1000⌋ : ℤ) = 1 := by norm_num
  simp only [getGeotiffTile, spatialHash, hf]
  rfl

/-- C1 counterexample: the primary tile yields `-9998.95`, which differs from
the sentinel `-9999.0`, yet the secondary tile is attempted and its value
`120.5` is returned — refuting "if and only if the sampled result equals
-9999.0". -/
theorem cascade_trigger_counterexample :
    getElevationForUTMPoint repoAB sampleNear 32 1500 1500 = (1205/10, tileB, none) ∧
    (-199979/20 : ℚ) ≠ -9999 ∧
    getElevationForUTMPoint repoAB sampleNear 32 1500 1500 ≠ (-199979/20, tileA, none) := by
  have hlt : (-199979/20 : ℚ) < -99989/10 := by norm_num
  have hge : ¬((1205/10 : ℚ) < -99989/10) := by norm_num
  have hsa : sampleNear 1500 1500 tileA.Path = (-199979/20, none) := rfl
  have hsb : sampleNear 1500 1500 tileB.Path = (1205/10, none) := rfl
  have hres : getElevationForUTMPoint repoAB sampleNear 32 1500 1500
      = (1205/10, tileB, none) := by
    simp only [getElevationForUTMPoint, repoAB_tile1, hsa, if_pos hlt, repoAB_tile2,
      hsb, if_neg hge]
  refine ⟨hres, by norm_num, ?_⟩
  rw [hres]
  intro h
  have hp := congrArg (fun p => p.2.1.Path) h
  simp only [tileA, tileB] at hp
  exact absurd hp (by decide)

/-- Witness for C1: the primary tile yields the sentinel `-9999.0`, the
secondary yields `120.5`; the result is `120.5` attributed to the secondary
tile. -/
theorem getElevationForUTMPoint_cascade_witness :
    getElevationForUTMPoint repoAB sampleSentinel 32 1500 1500 = (1205/10, tileB, none) :=
  (getElevationForUTMPoint_cascade repoAB sampleSentinel 32 1500 1500).2.1
    tileA (-9999) tileB (1205/10) repoAB_tile1 rfl (by norm_num) repoAB_tile2 rfl
    (by norm_num)

-- C6

/-- C6: for a longitude in a covered 6-degree bucket, `getTileUTM` projects
into the bucket's primary zone (`[0,6)→31`, `[6,12)→32`, `[12,18)→33`) with
the neighbor zone chosen by the hard sub-thresholds (`≥3` prefers 32 over 30,
`≥9` prefers 33 over 31, `≥15` prefers 34 over 32); the primary key is looked
up first, on lookup failure the neighbor projection is retried, the error is
propagated when both fail, and longitudes outside `[0, 18)` are rejected. -/
theorem getTileUTM_zones (repo : RepoMap) (transform : TransformFn) (lon lat : ℚ) :
    (6 ≤ lon ∧ lon < 12 → getTileUTM repo transform lon lat
      = getTileUTMLookup repo transform lon lat 32 25832 (if 9 ≤ lon then 33 else 31)
          (if 9 ≤ lon then 25833 else 25831)) ∧
    (12 ≤ lon ∧ lon < 18 → getTileUTM repo transform lon lat
      = getTileUTMLookup repo transform lon lat 33 25833 (if 15 ≤ lon then 34 else 32)
          (if 15 ≤ lon then 25834 else 25832)) ∧
    (0 ≤ lon ∧ lon < 6 → getTileUTM repo transform lon lat
      = getTileUTMLookup repo transform lon lat 31 25831 (if 3 ≤ lon then 32 else 30)
          (if 3 ≤ lon then 25832 else 25830)) ∧
    (lon < 0 ∨ 18 ≤ lon → getTileUTM repo transform lon lat = .error .invalidLongitude) ∧
    (∀ z ep nz nep x y t, transform lon lat ep = .ok (x, y) →
      getGeotiffTile repo x y z 1 = .ok t →
      getTileUTMLookup repo transform lon lat z ep nz nep = .ok (t, z, x, y)) ∧
    (∀ z ep nz nep x y err x2 y2 t, transform lon lat ep = .ok (x, y) →
      getGeotiffTile repo x y z 1 = .error err →
      transform lon lat nep = .ok (x2, y2) →
      getGeotiffTile repo x2 y2 nz 1 = .ok t →
      getTileUTMLookup repo transform lon lat z ep nz nep = .ok (t, nz, x2, y2)) ∧
    (∀ z ep nz nep x y err x2 y2 err2, transform lon lat ep = .ok (x, y) →
      getGeotiffTile repo x y z 1 = .error err →
      transform lon lat nep = .ok (x2, y2) →
      getGeotiffTile repo x2 y2 nz 1 = .error err2 →
      getTileUTMLookup repo transform lon lat z ep nz nep = .error err2) := by
  refine ⟨?_, ?_, ?_, ?_, ?_, ?_, ?_⟩
  · intro h
    by_cases h9 : 9 ≤ lon
    · simp only [getTileUTM, if_pos h, if_pos h9]
    · simp only [getTileUTM, if_pos h, if_neg h9]
  · intro h
    have hn1 : ¬(6 ≤ lon ∧ lon < 12) := by
      intro hc
      linarith [h.1, hc.2]
    by_cases h15 : 15 ≤ lon
    · simp only [getTileUTM, if_neg hn1, if_pos h, if_pos h15]
    · simp only [getTileUTM, if_neg hn1, if_pos h, if_neg h15]
  · intro h
    have hn1 : ¬(6 ≤ lon ∧ lon < 12) := by
      intro hc
      linarith [h.2, hc.1]
    have hn2 : ¬(12 ≤ lon ∧ lon < 18) := by
      intro hc
      linarith [h.2, hc.1]
    by_cases h3 : 3 ≤ lon
    · simp only [getTileUTM, if_neg hn1, if_neg hn2, if_pos h, if_pos h3]
    · simp only [getTileUTM, if_neg hn1, if_neg hn2, if_pos h, if_neg h3]
  · intro h
    have hn1 : ¬(6 ≤ lon ∧ lon < 12) := by
      rcases h with h | h
      · intro hc; linarith [hc.1]
      · intro hc; linarith [hc.2]
    have hn2 : ¬(12 ≤ lon ∧ lon < 18) := by
      rcases h with h | h
      · intro hc; linarith [hc.1]
      · intro hc; linarith [hc.2]
    have hn3 : ¬(0 ≤ lon ∧ lon < 6) := by
      rcases h with h | h
      · intro hc; linarith [hc.1]
      · intro hc; linarith [hc.2]
    simp only [getTileUTM, if_neg hn1, if_neg hn2, if_neg hn3]
  · intro z ep nz nep x y t h1 h2
    simp only [getTileUTMLookup, h1, h2]
  · intro z ep nz nep x y err x2 y2 t h1 h2 h3 h4
    simp only [getTileUTMLookup, h1, h2, h3, h4]
  · intro z ep nz nep x y err x2 y2 err2 h1 h2 h3 h4
    simp only [getTileUTMLookup, h1, h2, h3, h4]

/-- Witness for C6: longitude 10 lies in `[6,12)` with the `≥9` sub-threshold;
the primary zone-32 lookup fails and the neighbor zone-33 lookup succeeds. -/
theorem getTileUTM_zones_witness :
    getTileUTM repoN transformW 10 50 = .ok (tileN, 33, 333, 5555) := by
  have hf1 : (⌊(111 : ℚ) / 1000⌋ : ℤ) = 0 := by norm_num
  have hf2 : (⌊(5555 : ℚ) / 1000⌋ : ℤ) = 5 := by norm_num
  have hf3 : (⌊(333 : ℚ) / 1000⌋ : ℤ) = 0 := by norm_num
  have h2 : getGeotiffTile repoN 111 5555 32 1 = .error (.tileLookupFailed "32_0_5") := by
    simp only [getGeotiffTile, spatialHash, hf1, hf2]
    rfl
  have h4 : getGeotiffTile repoN 333 5555 33 1 = .ok tileN := by
    simp only [getGeotiffTile, spatialHash, hf3, hf2]
    rfl
  have hz := getTileUTM_zones repoN transformW 10 50
  rw [hz.1 ⟨by norm_num, by norm_num⟩, if_pos (by norm_num : (9 : ℚ) ≤ 10),
    if_pos (by norm_num : (9 : ℚ) ≤ 10)]
  exact hz.2.2.2.2.2.1 32 25832 33 25833 111 5555 (.tileLookupFailed "32_0_5")
    333 5555 tileN rfl h2 rfl h4

-- histogram helper lemmas

/-- `setLastQ` preserves the length. -/
theorem setLastQ_length (l : List ℚ) (v : ℚ) : (setLastQ l v).length = l.length := by
  induction l with
  | nil => rfl
  | cons b bs ih =>
    cases bs with
    | nil => rfl
    | cons b2 bs2 => simpa [setLastQ] using ih

/-- `setLastQ` really sets the last element. -/
theorem setLastQ_getLastD (l : List ℚ) (v : ℚ) (h : l ≠ []) :
    ∀ d, (setLastQ l v).getLastD d = v := by
  induction l with
  | nil => exact absurd rfl h
  | cons b bs ih =>
    intro d
    cases bs with
    | nil => rfl
    | cons b2 bs2 =>
      show (b :: setLastQ (b2 :: bs2) v).getLastD d = v
      rw [List.getLastD_cons]
      exact ih (by simp) b

/-- `incrementAt` preserves the length. -/
theorem incrementAt_length (l : List ℕ) (i : ℕ) : (incrementAt l i).length = l.length := by
  induction l generalizing i with
  | nil => rfl
  | cons c cs ih =>
    cases i with
    | zero => rfl
    | succ j => simpa [incrementAt] using ih j

/-- `incrementAt` at an in-range index increases the sum by one. -/
theorem incrementAt_sum (l : List ℕ) (i : ℕ) (h : i < l.length) :
    (incrementAt l i).sum = l.sum + 1 := by
  induction l generalizing i with
  | nil => simp at h
  | cons c cs ih =>
    cases i with
    | zero =>
      simp only [incrementAt, List.sum_cons]
      omega
    | succ j =>
      have hj : j < cs.length := by simpa using h
      simp only [incrementAt, List.sum_cons, ih j hj]
      omega

/-- An index returned by `findBinIdx` is in range. -/
theorem findBinIdx_lt_length (val : ℚ) (bins : List ℚ) (i : ℕ)
    (h : findBinIdx val bins = some i) : i < bins.length := by
  induction bins generalizing i with
  | nil => cases h
  | cons b bs ih =>
    by_cases hb : val < b
    · simp only [findBinIdx, if_pos hb, Option.some.injEq] at h
      simp only [List.length_cons]
      omega
    · simp only [findBinIdx, if_neg hb, Option.map_eq_some'] at h
      obtain ⟨j, hj, hji⟩ := h
      have := ih j hj
      simp only [List.length_cons]
      omega

/-- A value below the final bound is matched by `findBinIdx`. -/
theorem findBinIdx_isSome_of_lt (val : ℚ) (bins : List ℚ) (hne : bins ≠ [])
    (h : ∀ d, val < bins.getLastD d) : ∃ i, findBinIdx val bins = some i := by
  induction bins with
  | nil => exact absurd rfl hne
  | cons b bs ih =>
    by_cases hb : val < b
    · exact ⟨0, by simp [findBinIdx, hb]⟩
    · cases bs with
      | nil =>
        exact absurd (h b) (by simpa using hb)
      | cons b2 bs2 =>
        obtain ⟨j, hj⟩ := ih (by simp) (fun d => by
          have := h b
          rwa [List.getLastD_cons] at this)
        exact ⟨j + 1, by rw [findBinIdx, if_neg hb, hj]; rfl⟩

/-- Each population step on a value increments exactly one of the three
counters, provided the bound list is nonempty, agrees with the bin count, and
ends at the effective maximum. -/
theorem populateStep_total (effMin effMax : ℚ) (nbins : ℕ) (bins : List ℚ)
    (st : ℕ × ℕ × List ℕ) (val : ℚ) (hb : 1 ≤ nbins) (hblen : bins.length = nbins)
    (hclen : st.2.2.length = nbins) (hlast : ∀ d, bins.getLastD d = effMax) :
    popTotal (populateStep effMin effMax nbins bins st val) = popTotal st + 1 ∧
    (populateStep effMin effMax nbins bins st val).2.2.length = nbins := by
  unfold populateStep
  by_cases h1 : val < effMin
  · simp only [if_pos h1]
    exact ⟨by simp [popTotal]; omega, hclen⟩
  · by_cases h2 : effMax < val
    · simp only [if_neg h1, if_pos h2]
      exact ⟨by simp [popTotal]; omega, hclen⟩
    · simp only [if_neg h1, if_neg h2]
      by_cases h3 : val = effMax
      · simp only [if_pos h3]
        have hne : ¬((nbins : ℤ) - 1 = -1) := by omega
        simp only [if_neg hne]
        have htn : ((nbins : ℤ) - 1).toNat = nbins - 1 := by omega
        rw [htn]
        have hlt : nbins - 1 < st.2.2.length := by omega
        refine ⟨?_, by simp [incrementAt_length, hclen]⟩
        simp [popTotal, incrementAt_sum st.2.2 (nbins - 1) hlt]
        omega
      · simp only [if_neg h3]
        have hvlt : val < effMax := lt_of_le_of_ne (not_lt.mp h2) h3
        have hbne : bins ≠ [] := by
          intro hc
          rw [hc] at hblen
          simp at hblen
          omega
        obtain ⟨i, hi⟩ := findBinIdx_isSome_of_lt val bins hbne
          (fun d => by rw [hlast d]; exact hvlt)
        rw [hi]
        have hne : ¬((i : ℤ) = -1) := by omega
        simp only [if_neg hne]
        have hilt : i < st.2.2.length := by
          rw [hclen, ← hblen]
          exact findBinIdx_lt_length val bins i hi
        have htn : ((i : ℤ)).toNat = i := Int.toNat_natCast i
        rw [htn]
        refine ⟨?_, by simp [incrementAt_length, hclen]⟩
        simp [popTotal, incrementAt_sum st.2.2 i hilt]
        omega

/-- The population pass counts every value exactly once. -/
theorem populateAll_total (effMin effMax : ℚ) (nbins : ℕ) (bins : List ℚ)
    (values : List ℚ) (st : ℕ × ℕ × List ℕ) (hb : 1 ≤ nbins) (hblen : bins.length = nbins)
    (hclen : st.2.2.length = nbins) (hlast : ∀ d, bins.getLastD d = effMax) :
    popTotal (values.foldl (populateStep effMin effMax nbins bins) st)
      = popTotal st + values.length ∧
    (values.foldl (populateStep effMin effMax nbins bins) st).2.2.length = nbins := by
  induction values generalizing st with
  | nil => simpa using hclen
  | cons v vs ih =>
    obtain ⟨h1, h2⟩ := populateStep_total effMin effMax nbins bins st v hb hblen hclen hlast
    obtain ⟨ih1, ih2⟩ := ih (populateStep effMin effMax nbins bins st v) h2
    refine ⟨?_, by simpa using ih2⟩
    simp only [List.foldl_cons, List.length_cons]
    rw [ih1, h1]
    omega

/-- The min/max scan preserves `fst ≤ snd`. -/
theorem foldMinMax_le (values : List ℚ) (p : ℚ × ℚ) (h : p.1 ≤ p.2) :
    (values.foldl minMaxStep p).1 ≤ (values.foldl minMaxStep p).2 := by
  induction values generalizing p with
  | nil => simpa
  | cons v vs ih =>
    rw [List.foldl_cons]
    refine ih (minMaxStep p v) ?_
    unfold minMaxStep
    dsimp only
    split_ifs <;> linarith

/-- On a nonempty input, the computed minimum is at most the computed
maximum. -/
theorem findMinMax_le (values : List ℚ) (mn mx : ℚ) (hne : values ≠ [])
    (h : findMinMaxFromValues values = some (mn, mx)) : mn ≤ mx := by
  unfold findMinMaxFromValues at h
  rw [if_neg hne] at h
  cases values with
  | nil => exact absurd rfl hne
  | cons v vs =>
    rw [List.foldl_cons] at h
    have hstep : (minMaxStep (maxFloat64, -maxFloat64) v).1
        ≤ (minMaxStep (maxFloat64, -maxFloat64) v).2 := by
      have hpos : (0 : ℚ) < maxFloat64 := by norm_num [maxFloat64]
      unfold minMaxStep
      dsimp only
      split_ifs <;> linarith
    have hfold := foldMinMax_le vs (minMaxStep (maxFloat64, -maxFloat64) v) hstep
    rw [Option.some.injEq] at h
    have h1 := congrArg Prod.fst h
    have h2 := congrArg Prod.snd h
    dsimp only at h1 h2
    rw [← h1, ← h2]
    exact hfold

/-- `adjustIfEqual` leaves an already-strict range unchanged. -/
theorem adjustIfEqual_of_ne (mn mx : ℚ) (h : mn ≠ mx) : adjustIfEqual mn mx = (mn, mx) := by
  simp [adjustIfEqual, h]

/-- `adjustIfEqual` expands a degenerate range by `histAdjustment`. -/
theorem adjustIfEqual_of_eq (v : ℚ) :
    adjustIfEqual v v = (v - histAdjustment v, v + histAdjustment v) := by
  simp [adjustIfEqual, histAdjustment]

/-- The expansion amount is strictly positive. -/
theorem histAdjustment_pos (v : ℚ) : 0 < histAdjustment v := by
  unfold histAdjustment
  split_ifs with h
  · norm_num
  · have : (0 : ℚ) ≤ 1/10000 * |v| := by positivity
    exact lt_of_le_of_ne this (Ne.symm h)

/-- After `adjustIfEqual`, a weakly ordered range is strictly ordered. -/
theorem adjustIfEqual_lt (mn mx : ℚ) (h : mn ≤ mx) :
    (adjustIfEqual mn mx).1 < (adjustIfEqual mn mx).2 := by
  by_cases he : mn = mx
  · subst he
    rw [adjustIfEqual_of_eq]
    have := histAdjustment_pos mn
    dsimp only
    linarith
  · rw [adjustIfEqual_of_ne mn mx he]
    exact lt_of_le_of_ne h he

/-- The shape of the equal-width bin bounds. -/
theorem calculateEqualWidthBins_shape (mn mx : ℚ) (n : ℕ) (h : 1 ≤ n) :
    (calculateEqualWidthBins mn mx n).1.length = n ∧
    (calculateEqualWidthBins mn mx n).2 = List.replicate n 0 ∧
    (∀ d, (calculateEqualWidthBins mn mx n).1.getLastD d = mx) := by
  refine ⟨?_, rfl, ?_⟩
  · show (setLastQ ((List.range n).map
        fun i : ℕ => mn + ((i : ℚ) + 1) * ((mx - mn) / (n : ℚ))) mx).length = n
    rw [setLastQ_length, List.length_map, List.length_range]
  · intro d
    apply setLastQ_getLastD
    intro hc
    have hlen := congrArg List.length hc
    rw [List.length_map, List.length_range, List.length_nil] at hlen
    omega

/-- `buildEntries` copies the bin counts into the entries. -/
theorem buildEntries_binCounts (bins : List ℚ) (counts : List ℕ) (lower : ℚ) (tb : ℕ)
    (h : bins.length = counts.length) :
    (buildEntries lower bins counts tb).map HistogramEntry.BinCount = counts := by
  induction bins generalizing counts lower with
  | nil =>
    cases counts with
    | nil => rfl
    | cons c cs => simp at h
  | cons b bs ih =>
    cases counts with
    | nil => simp at h
    | cons c cs =>
      simp only [buildEntries, List.map_cons]
      rw [ih cs b (by simpa using h)]

/-- Forcing the final upper bound does not change the bin counts. -/
theorem setLastUpper_binCounts (es : List HistogramEntry) (v : ℚ) :
    (setLastUpper es v).map HistogramEntry.BinCount = es.map HistogramEntry.BinCount := by
  induction es with
  | nil => rfl
  | cons e es2 ih =>
    cases es2 with
    | nil => rfl
    | cons e2 es3 => simpa [setLastUpper] using ih


-- C3

/-- C3: in equal-width mode with no user overrides (no filtering), for every
non-empty value list (and a validated bin count of at least 1) the histogram
computation succeeds, and every value is counted exactly once: the bin counts,
the below-minimum count and the above-maximum count sum to the number of
values. -/
theorem processHistogramData_conservation (values : List ℚ) (nvc tp nbins : ℕ)
    (hne : values ≠ []) (hb : 1 ≤ nbins) :
    ∃ st es, processHistogramData values nvc tp .standard nbins none none = .ok (st, es) ∧
      (es.map HistogramEntry.BinCount).sum + st.BelowHistogramMinCount
        + st.AboveHistogramMaxCount = values.length := by
  obtain ⟨mn, mx, hmm⟩ : ∃ mn mx, findMinMaxFromValues values = some (mn, mx) :=
    ⟨(values.foldl minMaxStep (maxFloat64, -maxFloat64)).1,
     (values.foldl minMaxStep (maxFloat64, -maxFloat64)).2, by
      unfold findMinMaxFromValues
      rw [if_neg hne]⟩
  have hle : mn ≤ mx := findMinMax_le values mn mx hne hmm
  have hadj : (adjustIfEqual mn mx).1 < (adjustIfEqual mn mx).2 := adjustIfEqual_lt mn mx hle
  obtain ⟨hblen, hc0, hlast⟩ := calculateEqualWidthBins_shape
    (adjustIfEqual mn mx).1 (adjustIfEqual mn mx).2 nbins hb
  unfold processHistogramData
  rw [hmm]
  simp only [bothUserBoundsInvalid, Bool.false_eq_true, if_false]
  unfold standardBranch
  simp only [Option.getD_none]
  rw [if_neg (not_le.mpr hadj)]
  unfold finishHistogram populateAll
  refine ⟨_, _, rfl, ?_⟩
  obtain ⟨htot, hplen⟩ := populateAll_total (adjustIfEqual mn mx).1 (adjustIfEqual mn mx).2 nbins
    (calculateEqualWidthBins (adjustIfEqual mn mx).1 (adjustIfEqual mn mx).2 nbins).1 values
    (0, 0, (calculateEqualWidthBins (adjustIfEqual mn mx).1 (adjustIfEqual mn mx).2 nbins).2)
    hb hblen (by rw [hc0]; simp) hlast
  rw [setLastUpper_binCounts, buildEntries_binCounts _ _ _ _ (by rw [hblen, hplen])]
  have hzero : popTotal
      (0, 0, (calculateEqualWidthBins (adjustIfEqual mn mx).1 (adjustIfEqual mn mx).2 nbins).2)
      = 0 := by
    simp [popTotal, hc0, List.sum_replicate]
  rw [hzero] at htot
  unfold popTotal at htot
  dsimp only
  omega

/-- Witness for C3 at the value list `[1, 2, 3]` with two bins. -/
theorem processHistogramData_conservation_witness :
    ∃ st es, processHistogramData [1, 2, 3] 0 3 .standard 2 none none = .ok (st, es) ∧
      (es.map HistogramEntry.BinCount).sum + st.BelowHistogramMinCount
        + st.AboveHistogramMaxCount = [(1 : ℚ), 2, 3].length :=
  processHistogramData_conservation [1, 2, 3] 0 3 2 (by simp) (by decide)

-- C5

/-- Shared evaluation: equal-width mode with a degenerate detected range. -/
theorem histogram_allEqual_standard (values : List ℚ) (v : ℚ) (nvc tp nbins : ℕ)
    (hmm : findMinMaxFromValues values = some (v, v)) :
    ∃ st es, processHistogramData values nvc tp .standard nbins none none = .ok (st, es) ∧
      st.MinValueHistogram = some (v - histAdjustment v) ∧
      st.MaxValueHistogram = some (v + histAdjustment v) := by
  have hadj := histAdjustment_pos v
  have heq := adjustIfEqual_of_eq v
  unfold processHistogramData
  rw [hmm]
  simp only [bothUserBoundsInvalid, Bool.false_eq_true, if_false]
  unfold standardBranch
  simp only [Option.getD_none]
  rw [heq]
  rw [if_neg (by dsimp only; intro hc; linarith)]
  unfold finishHistogram
  refine ⟨_, _, rfl, ?_, ?_⟩
  · rfl
  · rfl

/-- Shared evaluation: quantile mode with a degenerate detected range and no
user overrides errors out at the filter-range check. -/
theorem histogram_allEqual_quantile (values : List ℚ) (v : ℚ) (nvc tp nbins : ℕ)
    (hmm : findMinMaxFromValues values = some (v, v)) :
    processHistogramData values nvc tp .quantile nbins none none
      = .error .quantileRangeInvalid := by
  unfold processHistogramData
  rw [hmm]
  simp only [bothUserBoundsInvalid, Bool.false_eq_true, if_false]
  unfold quantileBranch
  simp only [Option.getD_none]
  rw [if_pos (le_refl v)]

/-- Evaluation: the min/max scan on `[5, 5, 5]`. -/
theorem findMinMax_five : findMinMaxFromValues [5, 5, 5] = some (5, 5) := by
  unfold findMinMaxFromValues
  rw [if_neg (by simp : ¬([5, 5, 5] : List ℚ) = [])]
  unfold minMaxStep
  norm_num [maxFloat64, List.foldl]

/-- Evaluation: the min/max scan on `[0.5, 0.5, 0.5]`. -/
theorem findMinMax_half : findMinMaxFromValues [1/2, 1/2, 1/2] = some (1/2, 1/2) := by
  unfold findMinMaxFromValues
  rw [if_neg (by simp : ¬([1/2, 1/2, 1/2] : List ℚ) = [])]
  unfold minMaxStep
  norm_num [maxFloat64, List.foldl]

/-- C5 (amended): whenever the effective minimum equals the effective maximum
`v`, equal-width mode expands the range symmetrically by `0.0001·|v|` (falling
back to `0.0001` only when that product is zero, not by
`max(0.0001·|v|, 0.0001)`), yielding a non-zero-width range without error;
quantile mode with no user overrides instead rejects the degenerate filter
range with an error before any expansion. -/
theorem degenerate_range_amended (values : List ℚ) (v : ℚ) (nvc tp nbins : ℕ)
    (hmm : findMinMaxFromValues values = some (v, v)) :
    (∃ st es, processHistogramData values nvc tp .standard nbins none none = .ok (st, es) ∧
      st.MinValueHistogram = some (v - histAdjustment v) ∧
      st.MaxValueHistogram = some (v + histAdjustment v) ∧
      v - histAdjustment v < v + histAdjustment v) ∧
    processHistogramData values nvc tp .quantile nbins none none
      = .error .quantileRangeInvalid := by
  obtain ⟨st, es, h1, h2, h3⟩ := histogram_allEqual_standard values v nvc tp nbins hmm
  refine ⟨⟨st, es, h1, h2, h3, ?_⟩, histogram_allEqual_quantile values v nvc tp nbins hmm⟩
  have := histAdjustment_pos v
  linarith

/-- C5 counterexample: `values = [5.0, 5.0, 5.0]` errors in quantile mode
(the claim says neither mode errors), and for `values = [0.5, 0.5, 0.5]` the
equal-width expansion is `0.00005 = 0.0001·|0.5|`, not the claimed
`max(0.0001·|0.5|, 0.0001) = 0.0001`. -/
theorem degenerate_range_counterexample :
    processHistogramData [5, 5, 5] 0 3 .quantile 5 none none = .error .quantileRangeInvalid ∧
    (processHistogramData [1/2, 1/2, 1/2] 0 3 .standard 4 none none).toOption.map
        (fun r => r.1.MinValueHistogram)
      = some (some ((1 : ℚ)/2 - histAdjustment (1/2))) ∧
    (1 : ℚ)/2 - histAdjustment (1/2) ≠ 1/2 - max (1/10000 * |(1/2 : ℚ)|) (1/10000) := by
  refine ⟨histogram_allEqual_quantile [5, 5, 5] 5 0 3 5 findMinMax_five, ?_, ?_⟩
  · obtain ⟨st, es, h1, h2, h3⟩ :=
      histogram_allEqual_standard [1/2, 1/2, 1/2] (1/2) 0 3 4 findMinMax_half
    rw [h1]
    simp [Except.toOption, h2]
  · have habs : |(1/2 : ℚ)| = 1/2 := abs_of_pos (by norm_num)
    rw [show histAdjustment ((1 : ℚ)/2) = 1/20000 by norm_num [histAdjustment, habs]]
    rw [show max ((1 : ℚ)/10000 * |(1/2 : ℚ)|) (1/10000) = 1/10000 by
      rw [habs, max_eq_right (by norm_num)]]
    norm_num

/-- Witness for C5 (amended) at `values = [5.0, 5.0, 5.0]`. -/
theorem degenerate_range_amended_witness :
    (∃ st es, processHistogramData [5, 5, 5] 0 3 .standard 5 none none = .ok (st, es) ∧
      st.MinValueHistogram = some ((5 : ℚ) - histAdjustment 5) ∧
      st.MaxValueHistogram = some ((5 : ℚ) + histAdjustment 5) ∧
      (5 : ℚ) - histAdjustment 5 < (5 : ℚ) + histAdjustment 5) ∧
    processHistogramData [5, 5, 5] 0 3 .quantile 5 none none
      = .error .quantileRangeInvalid :=
  degenerate_range_amended [5, 5, 5] 5 0 3 5 findMinMax_five

-- C2

/-- Evaluation: the min/max scan on `[1..10]`. -/
theorem findMinMax_c2 :
    findMinMaxFromValues [1, 2, 3, 4, 5, 6, 7, 8, 9, 10] = some (1, 10) := by
  unfold findMinMaxFromValues
  rw [if_neg (by simp : ¬([1, 2, 3, 4, 5, 6, 7, 8, 9, 10] : List ℚ) = [])]
  unfold minMaxStep
  norm_num [maxFloat64, List.foldl]

/-- Evaluation: the quantile filter keeps all of `[1..10]`. -/
theorem filter_c2 :
    ([1, 2, 3, 4, 5, 6, 7, 8, 9, 10] : List ℚ).filter
      (fun val => decide ((1 : ℚ) ≤ val) && decide (val ≤ 10))
      = [1, 2, 3, 4, 5, 6, 7, 8, 9, 10] := by
  norm_num [List.filter]

/-- Evaluation: `[1..10]` is already sorted. -/
theorem sortAsc_c2 :
    sortAsc [1, 2, 3, 4, 5, 6, 7, 8, 9, 10] = [1, 2, 3, 4, 5, 6, 7, 8, 9, 10] := by
  norm_num [sortAsc, insertSorted]

/-- Evaluation: the nearest-rank bounds of `[1..10]` with 5 bins are
`[3, 5, 7, 9, 10]` (0-based indices 2, 4, 6, 8 and the forced maximum). -/
theorem quantileBins_c2 :
    calculateQuantileBins [1, 2, 3, 4, 5, 6, 7, 8, 9, 10] 1 10 5
      = ([3, 5, 7, 9, 10], [0, 0, 0, 0, 0]) := by
  rfl

/-- Evaluation: the population pass puts two values into every bin. -/
theorem populate_c2 :
    populateAll 1 10 5 [3, 5, 7, 9, 10] [1, 2, 3, 4, 5, 6, 7, 8, 9, 10] [0, 0, 0, 0, 0]
      = (0, 0, [2, 2, 2, 2, 2]) := by
  norm_num [populateAll, populateStep, findBinIdx, incrementAt, List.foldl]

/-- Evaluation: the full quantile pipeline on `[1..10]` with 5 bins. -/
theorem c2_eval :
    processHistogramData [1, 2, 3, 4, 5, 6, 7, 8, 9, 10] 0 10 .quantile 5 none none
      = .ok (c2Stat, c2Entries) := by
  unfold processHistogramData
  rw [findMinMax_c2]
  simp only [bothUserBoundsInvalid, Bool.false_eq_true, if_false]
  unfold quantileBranch
  simp only [Option.getD_none]
  rw [if_neg (by norm_num : ¬(10 : ℚ) ≤ 1)]
  rw [filter_c2]
  simp only [List.isEmpty_cons, Bool.false_eq_true, if_false]
  rw [sortAsc_c2]
  rw [show ([1, 2, 3, 4, 5, 6, 7, 8, 9, 10] : List ℚ).headD 0 = 1 from rfl,
    show ([1, 2, 3, 4, 5, 6, 7, 8, 9, 10] : List ℚ).getLastD 0 = 10 from rfl]
  rw [adjustIfEqual_of_ne 1 10 (by norm_num)]
  dsimp only
  rw [quantileBins_c2]
  dsimp only
  unfold finishHistogram
  rw [populate_c2]
  norm_num [buildEntries, setLastUpper, c2Stat, c2Entries, baseStatistic]

/-- C2 (amended): for `values = [1..10]` with 5 quantile bins and no
overrides, the bin upper bounds are `[3, 5, 7, 9, 10]` — the sorted value at
the 0-based index `⌊n·(i+1)/binCount⌋` clamped to `[0, n-1]`, with the last
bound forced to the effective maximum — and each bin holds exactly 2
entries. -/
theorem quantile_example_amended :
    processHistogramData [1, 2, 3, 4, 5, 6, 7, 8, 9, 10] 0 10 .quantile 5 none none
      = .ok (c2Stat, c2Entries) ∧
    c2Entries.map HistogramEntry.UpperBound = [3, 5, 7, 9, 10] ∧
    c2Entries.map HistogramEntry.BinCount = [2, 2, 2, 2, 2] :=
  ⟨c2_eval, rfl, rfl⟩

/-- C2 counterexample: the computed upper bounds are not the claimed
`[2, 4, 6, 8, 10]`. -/
theorem quantile_bounds_counterexample :
    processHistogramData [1, 2, 3, 4, 5, 6, 7, 8, 9, 10] 0 10 .quantile 5 none none
      = .ok (c2Stat, c2Entries) ∧
    c2Entries.map HistogramEntry.UpperBound ≠ [2, 4, 6, 8, 10] := by
  refine ⟨c2_eval, ?_⟩
  intro h
  have h0 := congrArg (fun l => l.getD 0 0) h
  norm_num [c2Entries] at h0

-- C7

/-- A `filterMap` whose function never filters is a `map`. -/
theorem filterMap_eq_map_of_all_some {α β : Type _} (f : α → Option β) (g : α → β)
    (l : List α) (h : ∀ x ∈ l, f x = some (g x)) : l.filterMap f = l.map g := by
  induction l with
  | nil => rfl
  | cons a as ih =>
    rw [List.filterMap_cons, h a (by simp), List.map_cons,
      ih (fun x hx => h x (by simp [hx]))]

/-- With every per-point elevation lookup succeeding, the sampling loop
keeps all `steps + 1` points, starts at distance 0 and ends at exactly the
total distance. -/
theorem calculateProfilePoints_ok (repo : RepoMap) (sample : Sampler) (zone : ℤ)
    (startE startN unitE unitN distance stepSize : ℚ) (steps : ℤ)
    (hok : ∀ x y, (getElevationForUTMPoint repo sample zone x y).2.2 = none)
    (hst : 1 ≤ steps) :
    (calculateProfilePoints repo sample zone startE startN unitE unitN
        distance stepSize steps).length = steps.toNat + 1 ∧
    (calculateProfilePoints repo sample zone startE startN unitE unitN
        distance stepSize steps).head?.map ProfilePoint.Distance = some 0 ∧
    (calculateProfilePoints repo sample zone startE startN unitE unitN
        distance stepSize steps).getLast?.map ProfilePoint.Distance = some distance := by
  unfold calculateProfilePoints
  rw [if_neg (by omega : ¬steps < 0)]
  rw [filterMap_eq_map_of_all_some _ (fun i : ℕ =>
    let currentDistance := if (i : ℤ) = steps then distance else (i : ℚ) * stepSize
    let easting := startE + unitE * currentDistance
    let northing := startN + unitN * currentDistance
    let r := getElevationForUTMPoint repo sample zone easting northing
    ({ Distance := currentDistance, Elevation := r.1,
       Easting := easting, Northing := northing,
       Attribution := r.2.1.Source ++ ", " ++ r.2.1.Actuality } : ProfilePoint))
    _ (fun i _ => by dsimp only; rw [hok]) ]
  refine ⟨by rw [List.length_map, List.length_range], ?_, ?_⟩
  · rw [List.range_succ_eq_map, List.map_cons, List.head?_cons]
    have h0 : ¬((0 : ℕ) : ℤ) = steps := by omega
    simp only [Option.map_some, h0, if_false]
    norm_num
  · rw [List.range_succ, List.map_append, List.map_cons, List.map_nil,
      List.getLast?_concat]
    have hn : ((steps.toNat : ℕ) : ℤ) = steps := by omega
    simp only [hn, if_pos]
    rfl

/-- C7: for a positive distance, the step size is
`distance/(maxTotalPoints-1)` with exactly `maxTotalPoints-1` segments when
that ideal step is at least `minStepSize`, and otherwise `minStepSize` with
`⌈distance/stepSize⌉` segments; when every per-point elevation lookup
succeeds, the returned profile has `segments + 1` points, starts at distance
0 and its last point's distance is forced to exactly the total distance. -/
theorem calculateElevationProfile_plan (repo : RepoMap) (sample : Sampler)
    (startUTM endUTM : PointDefinition) (distance minStepSize : ℚ) (maxPts : ℤ)
    (hd : 0 < distance) (hm : 2 ≤ maxPts) (hs : 0 < minStepSize)
    (hok : ∀ x y, (getElevationForUTMPoint repo sample startUTM.Zone x y).2.2 = none) :
    (¬(distance / ((maxPts - 1 : ℤ) : ℚ) < minStepSize) →
      profileStepPlan distance maxPts minStepSize
        = (distance / ((maxPts - 1 : ℤ) : ℚ), maxPts - 1)) ∧
    (distance / ((maxPts - 1 : ℤ) : ℚ) < minStepSize →
      profileStepPlan distance maxPts minStepSize
        = (minStepSize, ⌈distance / minStepSize⌉)) ∧
    (∃ pts, calculateElevationProfile repo sample startUTM endUTM distance maxPts
        minStepSize = .ok pts ∧
      pts.length = (profileStepPlan distance maxPts minStepSize).2.toNat + 1 ∧
      pts.head?.map ProfilePoint.Distance = some 0 ∧
      pts.getLast?.map ProfilePoint.Distance = some distance) := by
  have hm1 : ¬maxPts ≤ 1 := by omega
  have hplan1 : ¬(distance / ((maxPts - 1 : ℤ) : ℚ) < minStepSize) →
      profileStepPlan distance maxPts minStepSize
        = (distance / ((maxPts - 1 : ℤ) : ℚ), maxPts - 1) := by
    intro h
    unfold profileStepPlan
    rw [if_neg hm1, if_pos hd, if_neg h]
  have hplan2 : distance / ((maxPts - 1 : ℤ) : ℚ) < minStepSize →
      profileStepPlan distance maxPts minStepSize
        = (minStepSize, ⌈distance / minStepSize⌉) := by
    intro h
    unfold profileStepPlan
    rw [if_neg hm1, if_pos hd, if_pos h]
  have hsteps : 1 ≤ (profileStepPlan distance maxPts minStepSize).2 := by
    by_cases h : distance / ((maxPts - 1 : ℤ) : ℚ) < minStepSize
    · rw [hplan2 h]
      have hpos : 0 < distance / minStepSize := div_pos hd hs
      have := Int.ceil_pos.mpr hpos
      dsimp only
      omega
    · rw [hplan1 h]
      dsimp only
      omega
  refine ⟨hplan1, hplan2, ?_⟩
  obtain ⟨hlen, hhead, hlast⟩ := calculateProfilePoints_ok repo sample startUTM.Zone
    startUTM.Easting startUTM.Northing
    ((endUTM.Easting - startUTM.Easting) / distance)
    ((endUTM.Northing - startUTM.Northing) / distance) distance
    (profileStepPlan distance maxPts minStepSize).1
    (profileStepPlan distance maxPts minStepSize).2 hok hsteps
  refine ⟨_, ?_, hlen, hhead, hlast⟩
  unfold calculateElevationProfile
  rw [if_neg (ne_of_gt hd)]

/-- Every lookup against the all-covering repository `repoP` succeeds. -/
theorem repoP_ok : ∀ x y : ℚ, (getElevationForUTMPoint repoP sampleP 32 x y).2.2 = none := by
  intro x y
  simp only [getElevationForUTMPoint, getGeotiffTile, repoP, sampleP]
  rw [if_neg (by norm_num : ¬(42 : ℚ) < -99989/10)]

/-- Witness for C7 at distance 100, `maxTotalPoints = 10`,
`minStepSize = 5`: ten points, first at 0, last at exactly 100. -/
theorem calculateElevationProfile_plan_witness :
    (¬((100 : ℚ) / (((10 : ℤ) - 1 : ℤ) : ℚ) < 5) →
      profileStepPlan 100 10 5 = ((100 : ℚ) / (((10 : ℤ) - 1 : ℤ) : ℚ), (10 : ℤ) - 1)) ∧
    (((100 : ℚ) / (((10 : ℤ) - 1 : ℤ) : ℚ) < 5) →
      profileStepPlan 100 10 5 = (5, ⌈(100 : ℚ) / 5⌉)) ∧
    (∃ pts, calculateElevationProfile repoP sampleP ⟨32, 0, 0⟩ ⟨32, 100, 0⟩ 100 10 5
        = .ok pts ∧
      pts.length = (profileStepPlan 100 10 5).2.toNat + 1 ∧
      pts.head?.map ProfilePoint.Distance = some 0 ∧
      pts.getLast?.map ProfilePoint.Distance = some 100) :=
  calculateElevationProfile_plan repoP sampleP ⟨32, 0, 0⟩ ⟨32, 100, 0⟩ 100 5 10
    (by norm_num) (by norm_num) (by norm_num) repoP_ok
